import Mathlib

/-!
Verification of the Transformer encoder block in `transformer.cpp`
(namespace `util`, classes `MultiHeadAttention`, `FeedForward`, `LayerNorm`,
`TransformerEncoderBlock`).

Matrices are embedded as a dynamically-sized structure over `ℝ` (row count,
column count, and a total entry function); the idealized real-number model is
used for all claims about finite inputs.  The IEEE-754 special values
(`±inf`, `NaN`) produced by the code's `+inf` additive mask convention are
modelled separately by the type `FloatE`, whose arithmetic follows the IEEE
rules exactly on the special values (`exp(+inf) = +inf`, `inf/inf = NaN`,
`finite/inf = 0`, NaN propagation); finite arithmetic carries exact reals, the
standard idealization for rounding.
-/

open Finset

noncomputable section

/-- Dense dynamically-sized real matrix: `rows × cols`, with a total entry
function (entries outside the advertised bounds are irrelevant junk, exactly
like memory beyond an Eigen block). -/
structure Mat where
  rows : ℕ
  cols : ℕ
  data : ℕ → ℕ → ℝ

namespace Mat

/-- Matrix product, `C(i,j) = Σ_k A(i,k)·B(k,j)` over `A`'s column range,
as Eigen's `operator*` computes it. -/
def mul (A B : Mat) : Mat :=
  ⟨A.rows, B.cols, fun i j => ∑ k ∈ range A.cols, A.data i k * B.data k j⟩

/-- Transpose, as Eigen's `.transpose()`. -/
def transpose (A : Mat) : Mat :=
  ⟨A.cols, A.rows, fun i j => A.data j i⟩

/-- Entrywise sum, as Eigen's `operator+` / `operator+=`. -/
def add (A B : Mat) : Mat :=
  ⟨A.rows, A.cols, fun i j => A.data i j + B.data i j⟩

/-- Entrywise map, as Eigen's `.unaryExpr(f)` / cwise scalar operations. -/
def map (A : Mat) (f : ℝ → ℝ) : Mat :=
  ⟨A.rows, A.cols, fun i j => f (A.data i j)⟩

/-- Sum of row `i`, as Eigen's `.rowwise().sum()` component. -/
def rowSum (A : Mat) (i : ℕ) : ℝ :=
  ∑ j ∈ range A.cols, A.data i j

/-- The `m × n` block of `A` with upper-left corner `(r, c)`, as Eigen's
`.block(r, c, m, n)`. -/
def block (A : Mat) (r c m n : ℕ) : Mat :=
  ⟨m, n, fun i j => A.data (r + i) (c + j)⟩

end Mat

namespace util

/-- Hidden global RNG state of `util::uniform_init`: the function-local
`static std::mt19937` engine together with `uniform_real_distribution`.
`stream n` is the `n`-th canonical `[0,1)` draw the engine/distribution pair
produces after the program-start `random_device` seeding, and `pos` is how
many draws have been consumed so far.  The C++ standard leaves
`uniform_real_distribution`'s algorithm unspecified; what the code fixes, and
what matters here, is that the engine is function-local `static` (program
global), is advanced by every call, and that `uniform_init`'s signature
offers no seed or engine parameter. -/
structure RngState where
  stream : ℕ → ℝ
  pos : ℕ

/-- Shallow embedding of `util::uniform_init`: fills the `rows × cols` matrix
in row-major loop order with consecutive draws mapped affinely onto
`[-init_range, init_range]`, advancing the hidden global engine state. -/
def uniform_init (rows cols : ℕ) (init_range : ℝ) (st : RngState) :
    Mat × RngState :=
  (⟨rows, cols, fun i j =>
      -init_range + 2 * init_range * st.stream (st.pos + (i * cols + j))⟩,
   ⟨st.stream, st.pos + rows * cols⟩)

/-- Score computation of `util::scaled_dot_product_attention`:
`scores = Q·Kᵗ / sqrt(d_k)` with `d_k = Q.cols()`, then `scores += *mask`
when a mask is supplied. -/
def sdpaScores (Q K : Mat) (mask : Option Mat) : Mat :=
  let scores := (Q.mul K.transpose).map (fun v => v / Real.sqrt (Q.cols : ℝ))
  match mask with
  | none => scores
  | some m => scores.add m

/-- Row-wise softmax step of `util::scaled_dot_product_attention`:
`exp_scores = scores.unaryExpr(exp)`, `sum_exp = exp_scores.rowwise().sum()`,
`attn(i,j) = exp_scores(i,j) / sum_exp(i)`. -/
def rowSoftmax (S : Mat) : Mat :=
  let expScores := S.map Real.exp
  ⟨expScores.rows, expScores.cols, fun i j => expScores.data i j / expScores.rowSum i⟩

/-- Shallow embedding of `util::scaled_dot_product_attention`. -/
def scaled_dot_product_attention (Q K V : Mat) (mask : Option Mat) : Mat :=
  (rowSoftmax (sdpaScores Q K mask)).mul V

end util

/-- Parameters of `MultiHeadAttention<Scalar>`: configuration scalars and the
four projection matrices the constructor fills. -/
structure MultiHeadAttention where
  d_model : ℕ
  num_heads : ℕ
  W_Q : Mat
  W_K : Mat
  W_V : Mat
  W_O : Mat

namespace MultiHeadAttention

/-- Per-head width `d_k_ = d_model / num_heads` (integer division, as in the
constructor's initializer list). -/
def d_k (p : MultiHeadAttention) : ℕ := p.d_model / p.num_heads

/-- Output of head `h` inside `MultiHeadAttention::operator()`: attention on
the `h`-th contiguous column slices of `Q = x·W_Q`, `K = x·W_K`, `V = x·W_V`,
with the shared mask. -/
def headOut (p : MultiHeadAttention) (x : Mat) (mask : Option Mat) (h : ℕ) : Mat :=
  let Q := x.mul p.W_Q
  let K := x.mul p.W_K
  let V := x.mul p.W_V
  util.scaled_dot_product_attention
    (Q.block 0 (h * p.d_k) x.rows p.d_k)
    (K.block 0 (h * p.d_k) x.rows p.d_k)
    (V.block 0 (h * p.d_k) x.rows p.d_k) mask

/-- Shallow embedding of `MultiHeadAttention::operator()`: project, split into
heads, attend per head, concatenate head outputs into a
`[seq_len, d_model]` matrix (head `h` owns columns `[h·d_k, (h+1)·d_k)`),
and apply the final projection `W_O`. -/
def forward (p : MultiHeadAttention) (x : Mat) (mask : Option Mat) : Mat :=
  let concat : Mat :=
    ⟨x.rows, p.d_model, fun i j => (p.headOut x mask (j / p.d_k)).data i (j % p.d_k)⟩
  concat.mul p.W_O

end MultiHeadAttention

/-- Parameters of `FeedForward<Scalar>`. -/
structure FeedForward where
  d_model : ℕ
  d_ff : ℕ
  W1 : Mat
  W2 : Mat
  b1 : ℕ → ℝ
  b2 : ℕ → ℝ

/-- Shallow embedding of `FeedForward::operator()`:
`hidden = ReLU(x·W1 + b1ᵗ broadcast)`, `out = hidden·W2 + b2ᵗ broadcast`,
with `ReLU(v) = max(v, 0)`. -/
def FeedForward.forward (p : FeedForward) (x : Mat) : Mat :=
  let hidden : Mat :=
    ⟨x.rows, p.W1.cols, fun i j => max ((x.mul p.W1).data i j + p.b1 j) 0⟩
  ⟨hidden.rows, p.W2.cols, fun i j => (hidden.mul p.W2).data i j + p.b2 j⟩

/-- Parameters of `LayerNorm<Scalar>`. -/
structure LayerNorm where
  d_model : ℕ
  eps : ℝ
  gamma : ℕ → ℝ
  beta : ℕ → ℝ

namespace LayerNorm

/-- Row mean, as `x.rowwise().mean()`. -/
def rowMean (x : Mat) (i : ℕ) : ℝ :=
  (∑ j ∈ range x.cols, x.data i j) / (x.cols : ℝ)

/-- Row variance, as `((x.rowwise() - mean).square()).rowwise().mean()`. -/
def rowVar (x : Mat) (i : ℕ) : ℝ :=
  (∑ j ∈ range x.cols, (x.data i j - rowMean x i) ^ 2) / (x.cols : ℝ)

/-- Shallow embedding of `LayerNorm::operator()`:
`norm(i,j) = (x(i,j) − mean_i) / sqrt(var_i + eps)`, then the affine
correction `norm(i,j)·gamma(j) + beta(j)`. -/
def forward (p : LayerNorm) (x : Mat) : Mat :=
  ⟨x.rows, x.cols, fun i j =>
    (x.data i j - rowMean x i) / Real.sqrt (rowVar x i + p.eps) * p.gamma j + p.beta j⟩

end LayerNorm

/-- `LayerNorm` as the constructor builds it: `gamma` all ones, `beta` all
zeros, `eps = 1e-5` by default. -/
def lnDefault (n : ℕ) : LayerNorm :=
  ⟨n, 1e-5, fun _ => 1, fun _ => 0⟩

/-- IEEE-754 value classes relevant to the masking convention: a finite value
(carried exactly as a real, the usual idealization of rounding), the two
infinities, and NaN.  `float`/`double` behave identically on these classes. -/
inductive FloatE where
  | fin : ℝ → FloatE
  | pinf : FloatE
  | ninf : FloatE
  | nan : FloatE

namespace FloatE

/-- IEEE addition on value classes. -/
def add : FloatE → FloatE → FloatE
  | nan, _ => nan
  | _, nan => nan
  | fin a, fin b => fin (a + b)
  | fin _, pinf => pinf
  | fin _, ninf => ninf
  | pinf, fin _ => pinf
  | ninf, fin _ => ninf
  | pinf, pinf => pinf
  | ninf, ninf => ninf
  | pinf, ninf => nan
  | ninf, pinf => nan

open scoped Classical in
/-- IEEE multiplication on value classes (`±inf · 0 = NaN`, sign rules for
infinite products; `-0` is identified with `0`, which the claims at issue
never distinguish). -/
def mul : FloatE → FloatE → FloatE
  | nan, _ => nan
  | _, nan => nan
  | fin a, fin b => fin (a * b)
  | fin a, pinf => if a = 0 then nan else if a < 0 then ninf else pinf
  | fin a, ninf => if a = 0 then nan else if a < 0 then pinf else ninf
  | pinf, fin b => if b = 0 then nan else if b < 0 then ninf else pinf
  | ninf, fin b => if b = 0 then nan else if b < 0 then pinf else ninf
  | pinf, pinf => pinf
  | ninf, ninf => pinf
  | pinf, ninf => ninf
  | ninf, pinf => ninf

open scoped Classical in
/-- IEEE division on value classes: `inf/inf = NaN`, `finite/±inf = 0`,
`±inf/finite = ±inf`, `x/0` is a signed infinity for `x ≠ 0` and NaN for
`0/0` (`-0` again identified with `0`). -/
def div : FloatE → FloatE → FloatE
  | nan, _ => nan
  | _, nan => nan
  | pinf, pinf => nan
  | pinf, ninf => nan
  | ninf, pinf => nan
  | ninf, ninf => nan
  | fin _, pinf => fin 0
  | fin _, ninf => fin 0
  | pinf, fin b => if b < 0 then ninf else pinf
  | ninf, fin b => if b < 0 then pinf else ninf
  | fin a, fin b =>
      if b = 0 then (if a = 0 then nan else if a < 0 then ninf else pinf)
      else fin (a / b)

/-- IEEE `exp` on value classes: `exp(+inf) = +inf`, `exp(-inf) = 0`,
`exp(NaN) = NaN`; finite arguments are idealized as exact (`std::exp`
overflow of large finite scores is the separate stability issue §9 of the
spec flags, not at play at infinite inputs). -/
def exp : FloatE → FloatE
  | fin x => fin (Real.exp x)
  | pinf => pinf
  | ninf => fin 0
  | nan => nan

/-- Left-to-right accumulation `((0 + f 0) + f 1) + ⋯ + f (n-1)`, the IEEE
evaluation of a row reduction. -/
def sumTo (f : ℕ → FloatE) : ℕ → FloatE
  | 0 => fin 0
  | n + 1 => add (sumTo f n) (f n)

end FloatE

/-- Dense matrix of IEEE value classes, mirroring `Mat`. -/
structure MatE where
  rows : ℕ
  cols : ℕ
  data : ℕ → ℕ → FloatE

namespace MatE

/-- Matrix product over IEEE value classes. -/
def mul (A B : MatE) : MatE :=
  ⟨A.rows, B.cols, fun i j => FloatE.sumTo (fun k => (A.data i k).mul (B.data k j)) A.cols⟩

/-- Transpose. -/
def transpose (A : MatE) : MatE :=
  ⟨A.cols, A.rows, fun i j => A.data j i⟩

/-- Entrywise sum. -/
def add (A B : MatE) : MatE :=
  ⟨A.rows, A.cols, fun i j => (A.data i j).add (B.data i j)⟩

/-- Sum of row `i`. -/
def rowSum (A : MatE) (i : ℕ) : FloatE :=
  FloatE.sumTo (fun j => A.data i j) A.cols

end MatE

namespace util

/-- Score computation of `util::scaled_dot_product_attention` on IEEE value
classes: `Q·Kᵗ / sqrt(d_k)`, then `scores += *mask`. -/
def sdpaScoresE (Q K : MatE) (mask : Option MatE) : MatE :=
  let P := Q.mul K.transpose
  let scores : MatE :=
    ⟨P.rows, P.cols, fun i j => (P.data i j).div (.fin (Real.sqrt (Q.cols : ℝ)))⟩
  match mask with
  | none => scores
  | some m => scores.add m

/-- Row-wise softmax step on IEEE value classes: exponentiate, sum each row,
divide each entry by its row sum. -/
def rowSoftmaxE (S : MatE) : MatE :=
  let expScores : MatE := ⟨S.rows, S.cols, fun i j => (S.data i j).exp⟩
  ⟨expScores.rows, expScores.cols, fun i j => (expScores.data i j).div (expScores.rowSum i)⟩

/-- `util::scaled_dot_product_attention` on IEEE value classes. -/
def sdpaE (Q K V : MatE) (mask : Option MatE) : MatE :=
  (rowSoftmaxE (sdpaScoresE Q K mask)).mul V

end util

/-- Components of `TransformerEncoderBlock<Scalar>`. -/
structure TransformerEncoderBlock where
  attn : MultiHeadAttention
  ff : FeedForward
  ln1 : LayerNorm
  ln2 : LayerNorm

/-- Shallow embedding of `TransformerEncoderBlock::operator()`:
`x1 = ln1(x + attn(x, mask))`, result `ln2(x1 + ff(x1))`. -/
def TransformerEncoderBlock.forward (b : TransformerEncoderBlock) (x : Mat)
    (mask : Option Mat) : Mat :=
  let x1 := b.ln1.forward (x.add (b.attn.forward x mask))
  b.ln2.forward (x1.add (b.ff.forward x1))

/-- The 2×2 identity matrix. -/
def I2 : Mat := ⟨2, 2, fun i j => if i = j then 1 else 0⟩

/-- `MultiHeadAttention` instance of the spec's concrete scenario:
`d_model = 2`, `num_heads = 1`, all four projection matrices the identity. -/
def mhaId : MultiHeadAttention := ⟨2, 1, I2, I2, I2, I2⟩

/-- A 1×2 input row that is constant (both entries 1). -/
def onesRow : Mat := ⟨1, 2, fun _ _ => 1⟩

/-- A 1×2 input row `[1, -1]` (sample mean 0, sample variance 1). -/
def pmRow : Mat := ⟨1, 2, fun _ j => if j = 0 then 1 else -1⟩

/-- A concrete hidden-RNG state: canonical draws `0, 1/4, 2/4, …`, no draws
consumed yet. -/
def rngDemo : util.RngState := ⟨fun n => (n : ℝ) / 4, 0⟩

/-- A concrete `FeedForward` instance with `d_model = 2`, `d_ff = 1`. -/
def ffDemo : FeedForward :=
  ⟨2, 1, ⟨2, 1, fun _ _ => 0⟩, ⟨1, 2, fun _ _ => 0⟩, fun _ => 0, fun _ => 0⟩

/-- A concrete encoder block with `d_model = 2`. -/
def blockDemo : TransformerEncoderBlock := ⟨mhaId, ffDemo, lnDefault 2, lnDefault 2⟩

/-- The 2×2 all-zeros mask. -/
def zeroMask2 : Mat := ⟨2, 2, fun _ _ => 0⟩

/-- A 1×3 input row, whose column count 3 mismatches `mhaId`'s `d_model = 2`. -/
def badRow : Mat := ⟨1, 3, fun _ _ => 1⟩

/-- Finite 2×1 `Q = K = V` over IEEE value classes (both entries 1). -/
def qkvE : MatE := ⟨2, 1, fun _ _ => .fin 1⟩

/-- A 2×2 mask with `+inf` exactly at position `(0, 1)` and `0` elsewhere:
query 0 must not attend to key 1. -/
def maskE01 : MatE := ⟨2, 2, fun i j => if i = 0 ∧ j = 1 then .pinf else .fin 0⟩

/-- Finite 1×1 `Q = K = V` over IEEE value classes. -/
def oneE : MatE := ⟨1, 1, fun _ _ => .fin 1⟩

/-- The 1×1 mask that masks the only key of the only query: its softmax row
has no finite-weight support. -/
def maskAllE : MatE := ⟨1, 1, fun _ _ => .pinf⟩

/-- Unfolding lemma: a one-term IEEE accumulation. -/
lemma FloatE.sumTo_one (f : ℕ → FloatE) :
    FloatE.sumTo f 1 = (FloatE.fin 0).add (f 0) := rfl

/-- Unfolding lemma: a two-term IEEE accumulation. -/
lemma FloatE.sumTo_two (f : ℕ → FloatE) :
    FloatE.sumTo f 2 = ((FloatE.fin 0).add (f 0)).add (f 1) := rfl

/-- C10: for every input matrix (constant rows included) and every positive
epsilon — the construction default `1e-5` included — the per-row denominator
`sqrt(variance + eps)` used by `LayerNorm::operator()` is strictly positive,
so the normalization step never divides by zero. -/
theorem layernorm_denominator_positive (p : LayerNorm) (x : Mat) (i : ℕ)
    (heps : 0 < p.eps) (_hc : 0 < x.cols) :
    0 < Real.sqrt (LayerNorm.rowVar x i + p.eps) := by
  have hv : 0 ≤ LayerNorm.rowVar x i :=
    div_nonneg (Finset.sum_nonneg fun j _ => sq_nonneg _) (Nat.cast_nonneg _)
  exact Real.sqrt_pos.mpr (by linarith)

/-- Witness for C10 at the default `eps = 1e-5` and the constant row. -/
theorem layernorm_denominator_positive_witness :
    (0 < (lnDefault 2).eps ∧ 0 < onesRow.cols) ∧
      0 < Real.sqrt (LayerNorm.rowVar onesRow 0 + (lnDefault 2).eps) :=
  ⟨⟨by norm_num [lnDefault], by norm_num [onesRow]⟩,
   layernorm_denominator_positive (lnDefault 2) onesRow 0
     (by norm_num [lnDefault]) (by norm_num [onesRow])⟩

/-- C3: for every valid configuration (`num_heads` dividing `d_model`,
positive `d_ff`, weight shapes as the constructors build them) and every
input `x` with `d_model` columns, the outputs of `MultiHeadAttention`,
`FeedForward`, `LayerNorm`, and the whole `TransformerEncoderBlock` forward
pass all have shape `[seq_len, d_model]`: no sub-layer changes the row
count. -/
theorem forward_passes_preserve_shape
    (A : MultiHeadAttention) (F : FeedForward) (L : LayerNorm)
    (B : TransformerEncoderBlock) (x : Mat) (mask : Option Mat)
    (_hdvd : A.num_heads ∣ A.d_model) (_hnh : 0 < A.num_heads)
    (_hdff : 0 < F.d_ff) (_hFd : F.d_model = A.d_model)
    (hWO : A.W_O.cols = A.d_model) (hW2 : F.W2.cols = A.d_model)
    (hx : x.cols = A.d_model) :
    ((A.forward x mask).rows = x.rows ∧ (A.forward x mask).cols = A.d_model) ∧
    ((F.forward x).rows = x.rows ∧ (F.forward x).cols = A.d_model) ∧
    ((L.forward x).rows = x.rows ∧ (L.forward x).cols = A.d_model) ∧
    ((B.forward x mask).rows = x.rows ∧ (B.forward x mask).cols = A.d_model) :=
  ⟨⟨rfl, hWO⟩, ⟨rfl, hW2⟩, ⟨rfl, hx⟩, ⟨rfl, hx⟩⟩

/-- Witness for C3 at the concrete configuration `d_model = 2`,
`num_heads = 1`, `d_ff = 1` and a 1×2 input. -/
theorem forward_passes_preserve_shape_witness :
    (mhaId.num_heads ∣ mhaId.d_model ∧ 0 < mhaId.num_heads ∧ 0 < ffDemo.d_ff ∧
     ffDemo.d_model = mhaId.d_model ∧ mhaId.W_O.cols = mhaId.d_model ∧
     ffDemo.W2.cols = mhaId.d_model ∧ onesRow.cols = mhaId.d_model) ∧
    (((mhaId.forward onesRow none).rows = onesRow.rows ∧
      (mhaId.forward onesRow none).cols = mhaId.d_model) ∧
     ((ffDemo.forward onesRow).rows = onesRow.rows ∧
      (ffDemo.forward onesRow).cols = mhaId.d_model) ∧
     (((lnDefault 2).forward onesRow).rows = onesRow.rows ∧
      ((lnDefault 2).forward onesRow).cols = mhaId.d_model) ∧
     ((blockDemo.forward onesRow none).rows = onesRow.rows ∧
      (blockDemo.forward onesRow none).cols = mhaId.d_model)) :=
  ⟨⟨⟨2, rfl⟩, by norm_num [mhaId], by norm_num [ffDemo], rfl, rfl, rfl, rfl⟩,
   forward_passes_preserve_shape mhaId ffDemo (lnDefault 2) blockDemo onesRow none
     ⟨2, rfl⟩ (by norm_num [mhaId]) (by norm_num [ffDemo]) rfl rfl rfl rfl⟩

/-- C9 (divergence witness): `util::uniform_init` reads a function-local
static engine seeded from `random_device`; its signature takes no seed or
engine.  Two consecutive calls with identical arguments (same 1×1 shape,
same `init_range = 0.1`) read successive positions of the hidden global
stream and return different matrices — behavior is not reproducible. -/
theorem uniform_init_successive_calls_differ :
    (util.uniform_init 1 1 (1/10) rngDemo).1.data 0 0 = -1/10 ∧
    (util.uniform_init 1 1 (1/10)
        (util.uniform_init 1 1 (1/10) rngDemo).2).1.data 0 0 = -1/20 ∧
    (util.uniform_init 1 1 (1/10) rngDemo).1 ≠
      (util.uniform_init 1 1 (1/10) (util.uniform_init 1 1 (1/10) rngDemo).2).1 := by
  refine ⟨by norm_num [util.uniform_init, rngDemo],
          by norm_num [util.uniform_init, rngDemo], fun h => ?_⟩
  have h0 := congrArg (fun M => M.data 0 0) h
  simp only [util.uniform_init, rngDemo] at h0
  norm_num at h0

/-- C5 (divergence witness): `MultiHeadAttention::operator()` contains no
shape validation — its embedding is a total function into matrices with no
error outcome.  On a 1×3 input whose column count mismatches `d_model = 2`,
the forward pass still proceeds and produces a `[1, d_model]` matrix instead
of reporting a shape-mismatch error. -/
theorem shape_mismatch_not_detected :
    badRow.cols ≠ mhaId.d_model ∧
    (mhaId.forward badRow none).rows = 1 ∧
    (mhaId.forward badRow none).cols = 2 :=
  ⟨by norm_num [badRow, mhaId], rfl, rfl⟩

/-- Helper: adding a matrix whose entries are all zero is the identity. -/
lemma Mat.add_zero_data (A m : Mat) (hm : ∀ i j, m.data i j = 0) :
    A.add m = A := by
  have hd : (fun i j => A.data i j + m.data i j) = A.data := by
    funext i j; rw [hm, add_zero]
  calc A.add m = Mat.mk A.rows A.cols A.data := congrArg (Mat.mk A.rows A.cols) hd
    _ = A := rfl

/-- Helper: adding an all-zeros mask leaves the score matrix unchanged. -/
lemma sdpaScores_zero_mask (Q K m : Mat) (hm : ∀ i j, m.data i j = 0) :
    util.sdpaScores Q K (some m) = util.sdpaScores Q K none :=
  Mat.add_zero_data (util.sdpaScores Q K none) m hm

/-- Helper: attention with an all-zeros mask equals attention without one. -/
lemma sdpa_zero_mask (Q K V m : Mat) (hm : ∀ i j, m.data i j = 0) :
    util.scaled_dot_product_attention Q K V (some m) =
      util.scaled_dot_product_attention Q K V none := by
  unfold util.scaled_dot_product_attention
  rw [sdpaScores_zero_mask Q K m hm]

/-- Helper: multi-head attention with an all-zeros mask equals multi-head
attention without one. -/
lemma mha_zero_mask (p : MultiHeadAttention) (x m : Mat)
    (hm : ∀ i j, m.data i j = 0) :
    p.forward x (some m) = p.forward x none := by
  have hh : ∀ h, p.headOut x (some m) h = p.headOut x none h := by
    intro h
    unfold MultiHeadAttention.headOut
    rw [sdpa_zero_mask _ _ _ m hm]
  have hd : (fun i j => (p.headOut x (some m) (j / p.d_k)).data i (j % p.d_k))
      = (fun i j => (p.headOut x none (j / p.d_k)).data i (j % p.d_k)) := by
    funext i j; rw [hh]
  show (Mat.mk x.rows p.d_model fun i j =>
      (p.headOut x (some m) (j / p.d_k)).data i (j % p.d_k)).mul p.W_O
    = (Mat.mk x.rows p.d_model fun i j =>
      (p.headOut x none (j / p.d_k)).data i (j % p.d_k)).mul p.W_O
  exact congrArg (fun C => Mat.mul C p.W_O) (congrArg (Mat.mk x.rows p.d_model) hd)

/-- C8: for every input and fixed weights, a forward pass with an all-zeros
mask produces output identical to a forward pass with the mask absent, both
for `util::scaled_dot_product_attention` and for the whole
`TransformerEncoderBlock`. -/
theorem zero_mask_equals_no_mask (Q K V x m : Mat) (B : TransformerEncoderBlock)
    (hm : ∀ i j, m.data i j = 0) :
    util.scaled_dot_product_attention Q K V (some m) =
      util.scaled_dot_product_attention Q K V none ∧
    B.forward x (some m) = B.forward x none := by
  refine ⟨sdpa_zero_mask Q K V m hm, ?_⟩
  unfold TransformerEncoderBlock.forward
  rw [mha_zero_mask B.attn x m hm]

/-- C2: for every score matrix with at least one column (over the real-number
model, where every score is finite), each row of the softmax computed inside
`util::scaled_dot_product_attention` consists of weights in `[0, 1]` and sums
to 1 within `1e-6` (in fact exactly). -/
theorem softmax_rows_are_distributions (S : Mat) (hc : 0 < S.cols) (i : ℕ) :
    (∀ j < S.cols, 0 ≤ (util.rowSoftmax S).data i j ∧
        (util.rowSoftmax S).data i j ≤ 1) ∧
      |(util.rowSoftmax S).rowSum i - 1| ≤ 1e-6 := by
  have hT : 0 < ∑ k ∈ range S.cols, Real.exp (S.data i k) :=
    Finset.sum_pos (fun k _ => Real.exp_pos _) (nonempty_range_iff.mpr hc.ne')
  have hdata : ∀ j, (util.rowSoftmax S).data i j =
      Real.exp (S.data i j) / ∑ k ∈ range S.cols, Real.exp (S.data i k) := by
    intro j; rfl
  constructor
  · intro j hj
    rw [hdata]
    refine ⟨div_nonneg (Real.exp_pos _).le hT.le, (div_le_one hT).mpr ?_⟩
    exact Finset.single_le_sum (f := fun k => Real.exp (S.data i k))
      (fun k _ => (Real.exp_pos _).le) (mem_range.mpr hj)
  · have hsum : (util.rowSoftmax S).rowSum i = 1 := by
      show (∑ j ∈ range S.cols,
        Real.exp (S.data i j) / ∑ k ∈ range S.cols, Real.exp (S.data i k)) = 1
      rw [← Finset.sum_div, div_self hT.ne']
    rw [hsum]
    norm_num

/-- Witness for C2 at a concrete 1×1 score matrix. -/
theorem softmax_rows_are_distributions_witness :
    0 < onesRow.cols ∧
    ((∀ j < onesRow.cols, 0 ≤ (util.rowSoftmax onesRow).data 0 j ∧
        (util.rowSoftmax onesRow).data 0 j ≤ 1) ∧
      |(util.rowSoftmax onesRow).rowSum 0 - 1| ≤ 1e-6) :=
  ⟨by norm_num [onesRow],
   softmax_rows_are_distributions onesRow (by norm_num [onesRow]) 0⟩

/-- C1 (divergence witness): with finite `Q = K = V` and an additive mask
holding `+inf` at position `(0, 1)` (and `0` elsewhere, so query 0 has the
unmasked key 0), the attention weight the code computes at the masked
position is NaN, not 0: the masked score is `finite + inf = +inf`,
`exp(+inf) = +inf`, the row sum is `+inf`, and the weight is
`inf / inf = NaN` (while the unmasked weight of that row collapses to
`finite / inf = 0`). -/
theorem masked_weight_is_nan_not_zero :
    (util.rowSoftmaxE (util.sdpaScoresE qkvE qkvE (some maskE01))).data 0 1 =
      FloatE.nan ∧
    (util.rowSoftmaxE (util.sdpaScoresE qkvE qkvE (some maskE01))).data 0 0 =
      FloatE.fin 0 ∧
    FloatE.nan ≠ FloatE.fin 0 := by
  refine ⟨?_, ?_, fun h => FloatE.noConfusion h⟩ <;>
    simp [util.rowSoftmaxE, util.sdpaScoresE, MatE.mul, MatE.add, MatE.transpose,
      MatE.rowSum, FloatE.sumTo_one, FloatE.sumTo_two, FloatE.add, FloatE.mul,
      FloatE.div, FloatE.exp, qkvE, maskE01, Real.sqrt_one]

/-- C4 (divergence witness): when the only key of a query is masked (a softmax
row with no finite-weight support), `util::scaled_dot_product_attention`
silently returns NaN instead of reporting an error: the embedding is a total
function with no error outcome, and its output entry is NaN. -/
theorem fully_masked_row_yields_nan_silently :
    (util.sdpaE oneE oneE oneE (some maskAllE)).data 0 0 = FloatE.nan := by
  simp [util.sdpaE, util.rowSoftmaxE, util.sdpaScoresE, MatE.mul, MatE.add,
    MatE.transpose, MatE.rowSum, FloatE.sumTo_one, FloatE.add, FloatE.mul,
    FloatE.div, FloatE.exp, oneE, maskAllE, Real.sqrt_one]

/-- Helper: entry formula of `LayerNorm` at default parameters
(`gamma = 1`, `beta = 0`, `eps = 1e-5`). -/
lemma lnDefault_data (x : Mat) (i j : ℕ) :
    ((lnDefault x.cols).forward x).data i j =
      (x.data i j - LayerNorm.rowMean x i) /
        Real.sqrt (LayerNorm.rowVar x i + 1e-5) := by
  simp [lnDefault, LayerNorm.forward]

/-- Helper: deviations from the row mean sum to zero. -/
lemma sum_sub_rowMean (x : Mat) (i : ℕ) (hc : 0 < x.cols) :
    ∑ j ∈ range x.cols, (x.data i j - LayerNorm.rowMean x i) = 0 := by
  have hn : ((x.cols : ℝ)) ≠ 0 := Nat.cast_ne_zero.mpr hc.ne'
  rw [Finset.sum_sub_distrib, Finset.sum_const, card_range, nsmul_eq_mul,
    LayerNorm.rowMean]
  field_simp

/-- Helper: a `LayerNorm` output row at default parameters has mean exactly
zero. -/
lemma lnDefault_rowMean (x : Mat) (i : ℕ) (hc : 0 < x.cols) :
    LayerNorm.rowMean ((lnDefault x.cols).forward x) i = 0 := by
  have hcols : ((lnDefault x.cols).forward x).cols = x.cols := rfl
  unfold LayerNorm.rowMean
  simp only [hcols, lnDefault_data]
  rw [← Finset.sum_div, sum_sub_rowMean x i hc, zero_div, zero_div]

/-- Helper: squared deviations sum to `n · variance`. -/
lemma sum_sq_sub_rowMean (x : Mat) (i : ℕ) (hc : 0 < x.cols) :
    ∑ j ∈ range x.cols, (x.data i j - LayerNorm.rowMean x i) ^ 2 =
      (x.cols : ℝ) * LayerNorm.rowVar x i := by
  have hn : ((x.cols : ℝ)) ≠ 0 := Nat.cast_ne_zero.mpr hc.ne'
  unfold LayerNorm.rowVar
  field_simp

/-- Helper: a `LayerNorm` output row at default parameters has variance
`v / (v + eps)` where `v` is the input row's variance. -/
lemma lnDefault_rowVar (x : Mat) (i : ℕ) (hc : 0 < x.cols) :
    LayerNorm.rowVar ((lnDefault x.cols).forward x) i =
      LayerNorm.rowVar x i / (LayerNorm.rowVar x i + 1e-5) := by
  have hn : ((x.cols : ℝ)) ≠ 0 := Nat.cast_ne_zero.mpr hc.ne'
  have hv0 : 0 ≤ LayerNorm.rowVar x i :=
    div_nonneg (Finset.sum_nonneg fun j _ => sq_nonneg _) (Nat.cast_nonneg _)
  have hc2 : Real.sqrt (LayerNorm.rowVar x i + 1e-5) ^ 2 =
      LayerNorm.rowVar x i + 1e-5 := by
    refine Real.sq_sqrt ?_
    have h5 : (0:ℝ) < 1e-5 := by norm_num
    linarith
  have hcols : ((lnDefault x.cols).forward x).cols = x.cols := rfl
  unfold LayerNorm.rowVar
  simp only [hcols, lnDefault_data, lnDefault_rowMean x i hc, sub_zero, div_pow,
    hc2]
  rw [← Finset.sum_div, sum_sq_sub_rowMean x i hc, div_div,
    mul_comm (LayerNorm.rowVar x i + 1e-5) ((x.cols : ℝ)), ← div_div,
    mul_div_cancel_left₀ _ hn]

/-- C6 counterexample: on the constant row `[1, 1]`, `LayerNorm` at default
parameters outputs the zero row, whose sample variance is 0 — not within
`1e-3` of 1 as the claim states for every input row. -/
theorem constant_row_breaks_unit_variance :
    LayerNorm.rowVar ((lnDefault onesRow.cols).forward onesRow) 0 = 0 ∧
    ¬ |LayerNorm.rowVar ((lnDefault onesRow.cols).forward onesRow) 0 - 1| ≤
        1e-3 := by
  have h : LayerNorm.rowVar ((lnDefault onesRow.cols).forward onesRow) 0 = 0 := by
    rw [lnDefault_rowVar onesRow 0 (by norm_num [onesRow])]
    have hv : LayerNorm.rowVar onesRow 0 = 0 := by
      norm_num [LayerNorm.rowVar, LayerNorm.rowMean, onesRow,
        Finset.sum_range_succ]
    rw [hv, zero_div]
  exact ⟨h, by rw [h]; norm_num⟩

/-- C6 amended: at default parameters (`gamma = 1`, `beta = 0`, `eps = 1e-5`),
for every input row whose sample variance is at least `999·eps = 0.00999`,
the output row's sample mean is within `1e-5` of 0 (it is exactly 0) and its
sample variance is within `1e-3` of 1 (it equals `v/(v + eps)`).  Rows of
smaller variance — constant rows in particular — keep mean 0 but break the
variance guarantee. -/
theorem layernorm_default_normalizes_rows (x : Mat) (i : ℕ) (hc : 0 < x.cols)
    (hvar : 999 / 100000 ≤ LayerNorm.rowVar x i) :
    |LayerNorm.rowMean ((lnDefault x.cols).forward x) i - 0| ≤ 1e-5 ∧
    |LayerNorm.rowVar ((lnDefault x.cols).forward x) i - 1| ≤ 1e-3 := by
  have hv0 : 0 ≤ LayerNorm.rowVar x i :=
    div_nonneg (Finset.sum_nonneg fun j _ => sq_nonneg _) (Nat.cast_nonneg _)
  refine ⟨by rw [lnDefault_rowMean x i hc]; norm_num, ?_⟩
  rw [lnDefault_rowVar x i hc]
  have h5 : (0:ℝ) < 1e-5 := by norm_num
  have hpos : 0 < LayerNorm.rowVar x i + 1e-5 := by linarith
  have key : LayerNorm.rowVar x i / (LayerNorm.rowVar x i + 1e-5) - 1 =
      -(1e-5 / (LayerNorm.rowVar x i + 1e-5)) := by
    field_simp
  rw [key, abs_neg, abs_of_nonneg (div_nonneg h5.le hpos.le), div_le_iff₀ hpos]
  nlinarith [hvar]

/-- Witness for C6 (amended) at the row `[1, -1]`, whose sample variance is
1. -/
theorem layernorm_default_normalizes_rows_witness :
    (0 < pmRow.cols ∧ 999 / 100000 ≤ LayerNorm.rowVar pmRow 0) ∧
    (|LayerNorm.rowMean ((lnDefault pmRow.cols).forward pmRow) 0 - 0| ≤ 1e-5 ∧
     |LayerNorm.rowVar ((lnDefault pmRow.cols).forward pmRow) 0 - 1| ≤ 1e-3) :=
  ⟨⟨by norm_num [pmRow],
    by norm_num [LayerNorm.rowVar, LayerNorm.rowMean, pmRow,
      Finset.sum_range_succ]⟩,
   layernorm_default_normalizes_rows pmRow 0 (by norm_num [pmRow])
     (by norm_num [LayerNorm.rowVar, LayerNorm.rowMean, pmRow,
       Finset.sum_range_succ])⟩

set_option maxHeartbeats 1000000 in
/-- C7: in the concrete scenario `d_model = 2`, `num_heads = 1`, all four
projection matrices the identity, no mask, and input `x = [[1,0],[0,1]]`
(so `Q = K = V = x`), the intermediate scores `x·xᵗ/√2` are
`[[0.7071, 0], [0, 0.7071]]` (diagonal `1/√2`, within `1e-4`) and
`MultiHeadAttention`'s output is approximately
`[[0.6698, 0.3302], [0.3302, 0.6698]]` (within `1e-3`). -/
theorem concrete_identity_attention_values :
    (|(util.sdpaScores I2 I2 none).data 0 0 - 0.7071| ≤ 1e-4 ∧
     (util.sdpaScores I2 I2 none).data 0 1 = 0 ∧
     (util.sdpaScores I2 I2 none).data 1 0 = 0 ∧
     |(util.sdpaScores I2 I2 none).data 1 1 - 0.7071| ≤ 1e-4) ∧
    (|(mhaId.forward I2 none).data 0 0 - 0.6698| ≤ 1e-3 ∧
     |(mhaId.forward I2 none).data 0 1 - 0.3302| ≤ 1e-3 ∧
     |(mhaId.forward I2 none).data 1 0 - 0.3302| ≤ 1e-3 ∧
     |(mhaId.forward I2 none).data 1 1 - 0.6698| ≤ 1e-3) := by
  have hpos : (0:ℝ) < Real.sqrt 2 := Real.sqrt_pos.mpr (by norm_num)
  have ha : (1.41421:ℝ) < Real.sqrt 2 := (Real.lt_sqrt (by norm_num)).mpr (by norm_num)
  have hb : Real.sqrt 2 < 1.41422 := (Real.sqrt_lt' (by norm_num)).mpr (by norm_num)
  have hs1 : (0.7071 : ℝ) ≤ 1 / Real.sqrt 2 := by rw [le_div_iff₀ hpos]; linarith
  have hs2 : 1 / Real.sqrt 2 ≤ 0.70711 := by rw [div_le_iff₀ hpos]; linarith
  have he1 : (2.026 : ℝ) ≤ Real.exp (1 / Real.sqrt 2) := by
    have h := Real.sum_le_exp_of_nonneg (x := (0.7071:ℝ)) (by norm_num) 5
    norm_num [Finset.sum_range_succ, Nat.factorial] at h
    calc (2.026:ℝ) ≤ Real.exp 0.7071 := by linarith
      _ ≤ Real.exp (1 / Real.sqrt 2) := Real.exp_le_exp.mpr hs1
  have he2 : Real.exp (1 / Real.sqrt 2) ≤ 2.029 := by
    have h := Real.exp_bound' (x := (0.70711:ℝ)) (by norm_num) (by norm_num)
      (n := 5) (by norm_num)
    norm_num [Finset.sum_range_succ, Nat.factorial] at h
    calc Real.exp (1 / Real.sqrt 2) ≤ Real.exp 0.70711 := Real.exp_le_exp.mpr hs2
      _ ≤ 2.029 := by linarith
  have hep : (0:ℝ) < Real.exp (1 / Real.sqrt 2) + 1 := by linarith
  have hep' : (0:ℝ) < 1 + Real.exp (1 / Real.sqrt 2) := by linarith
  have hsc00 : (util.sdpaScores I2 I2 none).data 0 0 = 1 / Real.sqrt 2 := by
    simp [util.sdpaScores, Mat.mul, Mat.map, Mat.transpose, I2,
      Finset.sum_range_succ]
  have hsc11 : (util.sdpaScores I2 I2 none).data 1 1 = 1 / Real.sqrt 2 := by
    simp [util.sdpaScores, Mat.mul, Mat.map, Mat.transpose, I2,
      Finset.sum_range_succ]
  have h00 : (mhaId.forward I2 none).data 0 0 =
      Real.exp (1 / Real.sqrt 2) / (Real.exp (1 / Real.sqrt 2) + 1) := by
    simp [MultiHeadAttention.forward, MultiHeadAttention.headOut,
      MultiHeadAttention.d_k, util.scaled_dot_product_attention,
      util.rowSoftmax, util.sdpaScores, Mat.mul, Mat.map, Mat.transpose,
      Mat.block, Mat.rowSum, I2, mhaId, Finset.sum_range_succ, Real.exp_zero]
  have h01 : (mhaId.forward I2 none).data 0 1 =
      1 / (Real.exp (1 / Real.sqrt 2) + 1) := by
    simp [MultiHeadAttention.forward, MultiHeadAttention.headOut,
      MultiHeadAttention.d_k, util.scaled_dot_product_attention,
      util.rowSoftmax, util.sdpaScores, Mat.mul, Mat.map, Mat.transpose,
      Mat.block, Mat.rowSum, I2, mhaId, Finset.sum_range_succ, Real.exp_zero]
  have h10 : (mhaId.forward I2 none).data 1 0 =
      1 / (1 + Real.exp (1 / Real.sqrt 2)) := by
    simp [MultiHeadAttention.forward, MultiHeadAttention.headOut,
      MultiHeadAttention.d_k, util.scaled_dot_product_attention,
      util.rowSoftmax, util.sdpaScores, Mat.mul, Mat.map, Mat.transpose,
      Mat.block, Mat.rowSum, I2, mhaId, Finset.sum_range_succ, Real.exp_zero]
  have h11 : (mhaId.forward I2 none).data 1 1 =
      Real.exp (1 / Real.sqrt 2) / (1 + Real.exp (1 / Real.sqrt 2)) := by
    simp [MultiHeadAttention.forward, MultiHeadAttention.headOut,
      MultiHeadAttention.d_k, util.scaled_dot_product_attention,
      util.rowSoftmax, util.sdpaScores, Mat.mul, Mat.map, Mat.transpose,
      Mat.block, Mat.rowSum, I2, mhaId, Finset.sum_range_succ, Real.exp_zero]
  have k1 : Real.exp (1 / Real.sqrt 2) / (Real.exp (1 / Real.sqrt 2) + 1) ≤
      0.6708 := by rw [div_le_iff₀ hep]; linarith
  have k2 : (0.6688:ℝ) ≤
      Real.exp (1 / Real.sqrt 2) / (Real.exp (1 / Real.sqrt 2) + 1) := by
    rw [le_div_iff₀ hep]; linarith
  have k3 : 1 / (Real.exp (1 / Real.sqrt 2) + 1) ≤ (0.3312:ℝ) := by
    rw [div_le_iff₀ hep]; linarith
  have k4 : (0.3292:ℝ) ≤ 1 / (Real.exp (1 / Real.sqrt 2) + 1) := by
    rw [le_div_iff₀ hep]; linarith
  have k5 : 1 / (1 + Real.exp (1 / Real.sqrt 2)) ≤ (0.3312:ℝ) := by
    rw [div_le_iff₀ hep']; linarith
  have k6 : (0.3292:ℝ) ≤ 1 / (1 + Real.exp (1 / Real.sqrt 2)) := by
    rw [le_div_iff₀ hep']; linarith
  have k7 : Real.exp (1 / Real.sqrt 2) / (1 + Real.exp (1 / Real.sqrt 2)) ≤
      0.6708 := by rw [div_le_iff₀ hep']; linarith
  have k8 : (0.6688:ℝ) ≤
      Real.exp (1 / Real.sqrt 2) / (1 + Real.exp (1 / Real.sqrt 2)) := by
    rw [le_div_iff₀ hep']; linarith
  refine ⟨⟨?_, ?_, ?_, ?_⟩, ?_, ?_, ?_, ?_⟩
  · rw [hsc00]; exact abs_le.mpr ⟨by linarith, by linarith⟩
  · simp [util.sdpaScores, Mat.mul, Mat.map, Mat.transpose, I2,
      Finset.sum_range_succ]
  · simp [util.sdpaScores, Mat.mul, Mat.map, Mat.transpose, I2,
      Finset.sum_range_succ]
  · rw [hsc11]; exact abs_le.mpr ⟨by linarith, by linarith⟩
  · rw [h00]; exact abs_le.mpr ⟨by linarith, by linarith⟩
  · rw [h01]; exact abs_le.mpr ⟨by linarith, by linarith⟩
  · rw [h10]; exact abs_le.mpr ⟨by linarith, by linarith⟩
  · rw [h11]; exact abs_le.mpr ⟨by linarith, by linarith⟩

/-- Witness for C8 at a concrete block, input and all-zeros mask. -/
theorem zero_mask_equals_no_mask_witness :
    (∀ i j, zeroMask2.data i j = 0) ∧
    (util.scaled_dot_product_attention I2 I2 I2 (some zeroMask2) =
       util.scaled_dot_product_attention I2 I2 I2 none ∧
     blockDemo.forward I2 (some zeroMask2) = blockDemo.forward I2 none) :=
  ⟨fun _ _ => rfl,
   zero_mask_equals_no_mask I2 I2 I2 I2 zeroMask2 blockDemo (fun _ _ => rfl)⟩

end
